import Mathlib

/-
Verification of the Contextual-Search query-understanding and ranking pipeline.

This file gives a shallow embedding of the core pipeline of the repository:
  app/nlp/intent_extractor.py   (intent extraction from free text)
  app/services/search_service.py (filter merging, post-filter predicate, search loop)
  app/services/ranking_service.py (behaviour-based re-ranking)
  app/services/explanation_orchestrator.py (explanation enrichment, result shape only)

Modelling conventions:
  - Python floats are modelled as exact rationals (ℚ); `round(x, k)` is modelled by
    `roundHE k`, rounding half to even as Python's `round` does.
  - Python strings are modelled as `String` / `List Char`; `str.lower()` and
    `str.upper()` are modelled per-character on the ASCII range (all pattern
    literals of the source are ASCII), and `\s` / `str.strip()` use the ASCII
    whitespace characters that occur in the queries considered.
  - The regular expressions of intent_extractor.py are hand-compiled into
    deterministic scanners.  For these particular patterns the greedy local
    scanning implemented here coincides with Python's leftmost backtracking
    search: every quantified sub-pattern is followed either by nothing or by a
    character class that is disjoint from the characters the quantifier can
    consume, so shortening a greedy match can never turn a failure into a
    success (argued pattern by pattern in the comments below).
  - Python dict/list iteration order is preserved.  The source iterates over
    Python sets for categories, brands and colors, whose order is unspecified;
    here the written order of the source literal is used.  The two agree
    whenever at most one member matches (true for all concrete inputs used in
    the proofs below).
-/

namespace ContextualSearch

/-- A half-open character span `[start, stop)`, as produced by `re.Match.span()`. -/
abbrev Span := Nat × Nat

/-- Python `\s` (ASCII fragment): the whitespace characters of `str.strip` /
`re.sub(r'\s+', ...)` that can occur in the modelled queries. -/
def isWS (c : Char) : Bool :=
  c = ' ' || c = '\t' || c = '\n' || c = '\r' || c = '\x0b' || c = '\x0c'

/-- Python `\w` (ASCII fragment): word characters, used for `\b` word boundaries. -/
def isWordChar (c : Char) : Bool := c.isAlphanum || c = '_'

/-- Word-character test on the character preceding the current position
(`none` at the very start of the string). -/
def isWordCharO : Option Char → Bool
  | none => false
  | some c => isWordChar c

/-- `\b` after a match: the next character (head of the rest) is not a word
character, or the string ends. -/
def boundaryAfter : List Char → Bool
  | [] => true
  | c :: _ => !isWordChar c

/-- `str.lower()` on the ASCII range, per character. -/
def lowerL (s : List Char) : List Char := s.map Char.toLower

/-- `str.upper()` on the ASCII range, per character. -/
def upperL (s : List Char) : List Char := s.map Char.toUpper

/-- `str.strip()`: remove leading and trailing whitespace. -/
def trimL (s : List Char) : List Char :=
  ((s.dropWhile isWS).reverse.dropWhile isWS).reverse

/-- Collapse runs of adjacent spaces to a single space. -/
def squeezeSpaces : List Char → List Char
  | [] => []
  | [c] => [c]
  | a :: b :: rest =>
    if a = ' ' && b = ' ' then squeezeSpaces (b :: rest)
    else a :: squeezeSpaces (b :: rest)

/-- `re.sub(r'\s+', ' ', s)`: collapse every maximal whitespace run to one
space (each whitespace character is normalised to a space, then runs are
squeezed). -/
def collapseWS (s : List Char) : List Char :=
  squeezeSpaces (s.map (fun c => if isWS c then ' ' else c))

/-- Substring containment, Python's `needle in hay` on strings
(`containsSub [] hay = true`, as in Python). -/
def containsSub (n : List Char) : List Char → Bool
  | [] => n.isPrefixOf []
  | c :: rest => n.isPrefixOf (c :: rest) || containsSub n rest

/-- Scan a literal: consume `w` if it is a prefix, returning the rest. -/
def eatLit (w : String) (s : List Char) : Option (List Char) :=
  if w.data.isPrefixOf s then some (s.drop w.data.length) else none

/-- Scan `\s+` (greedy, at least one whitespace character). -/
def eatWS1 (s : List Char) : Option (List Char) :=
  let k := (s.takeWhile isWS).length
  if k = 0 then none else some (s.drop k)

/-- Scan `\s*` (greedy). -/
def eatWS0 (s : List Char) : List Char := s.dropWhile isWS

/-- Scan `\d+` (greedy), returning the digits and the rest. -/
def eatDigits (s : List Char) : Option (List Char × List Char) :=
  let ds := s.takeWhile Char.isDigit
  if ds = [] then none else some (ds, s.drop ds.length)

/-- Scan `(?:,\d{3})*` (greedy): thousands groups of a number literal. -/
def eatCommaGroups : List Char → List Char
  | ',' :: a :: b :: c :: rest =>
    if a.isDigit && b.isDigit && c.isDigit then eatCommaGroups rest
    else ',' :: a :: b :: c :: rest
  | s => s

/-- Scan `(?:\.\d+)?` (greedy): the optional fractional part of a number literal. -/
def eatFrac : List Char → List Char
  | '.' :: rest =>
    let ds := rest.takeWhile Char.isDigit
    if ds = [] then '.' :: rest else rest.drop ds.length
  | s => s

/-- Scan the price number pattern `\d+(?:,\d{3})*(?:\.\d+)?` (greedy),
returning the matched text and the rest. -/
def eatNum (s : List Char) : Option (List Char × List Char) :=
  match eatDigits s with
  | none => none
  | some (_, r1) =>
    let r3 := eatFrac (eatCommaGroups r1)
    some (s.take (s.length - r3.length), r3)

/-- Scan the rating number pattern `\d+(?:\.\d+)?` (greedy). -/
def eatRNum (s : List Char) : Option (List Char × List Char) :=
  match eatDigits s with
  | none => none
  | some (_, r1) =>
    let r2 := eatFrac r1
    some (s.take (s.length - r2.length), r2)

/-- Numeric value of a decimal digit. -/
def digitVal (c : Char) : Nat := c.toNat - '0'.toNat

/-- Numeric value of a digit string. -/
def digitsVal (ds : List Char) : Nat := ds.foldl (fun n c => 10 * n + digitVal c) 0

/-!  Rational arithmetic.  The standard `Rat` operations `+ - * / ⁻¹` are
`@[irreducible]`, so terms built from them cannot be evaluated by the kernel
(`decide`/`rfl`).  The pipeline below therefore uses the following thin
wrappers, built from the reducible primitives `mkRat`, `Rat.divInt`,
`Rat.blt` and `Rat.floor`.  Each wrapper is proved equal to the
corresponding standard operation (`qAdd_eq` etc. in the theorem section), so
the claims can be stated with ordinary `ℚ` arithmetic. -/

/-- Rational addition (equals `a + b`, see `qAdd_eq`). -/
def qAdd (a b : ℚ) : ℚ := mkRat (a.num * b.den + b.num * a.den) (a.den * b.den)

/-- Rational subtraction (equals `a - b`, see `qSub_eq`). -/
def qSub (a b : ℚ) : ℚ := mkRat (a.num * b.den - b.num * a.den) (a.den * b.den)

/-- Rational multiplication (equals `a * b`, see `qMul_eq`). -/
def qMul (a b : ℚ) : ℚ := mkRat (a.num * b.num) (a.den * b.den)

/-- Rational division (equals `a / b`, see `qDiv_eq`). -/
def qDiv (a b : ℚ) : ℚ := Rat.divInt (a.num * b.den) (a.den * b.num)

/-- Rational minimum, Python's `min(a, b)` (equals `min a b`, see `qMin_eq`). -/
def qMin (a b : ℚ) : ℚ := if Rat.blt b a then b else a

/-- `float(text.replace(',', ''))` on a matched number literal, as an exact
rational. -/
def parseNum (t : List Char) : ℚ :=
  let t := t.filter (fun c => c != ',')
  let intPart := t.takeWhile (fun c => c != '.')
  let fracPart := (t.dropWhile (fun c => c != '.')).drop 1
  qAdd (digitsVal intPart : ℚ)
    (Rat.divInt (digitsVal fracPart) ((10 : ℤ) ^ fracPart.length))

/-- Round a rational to the nearest integer, half to even (`Rat.blt` is
strict less-than and `Rat.floor` is `⌊·⌋`, see `qFloor_eq`). -/
def roundHEInt (y : ℚ) : ℤ :=
  if Rat.blt (qSub y (y.floor : ℚ)) (mkRat 1 2) then y.floor
  else if Rat.blt (mkRat 1 2) (qSub y (y.floor : ℚ)) then y.floor + 1
  else if y.floor % 2 = 0 then y.floor else y.floor + 1

/-- Python `round(x, k)`: round to `k` decimal places, half to even, modelled
exactly on ℚ. -/
def roundHE (k : Nat) (x : ℚ) : ℚ :=
  Rat.divInt (roundHEInt (qMul x ((10 ^ k : ℕ) : ℚ))) ((10 ^ k : ℕ) : ℤ)

/-!  `re.search` : leftmost match.  A matcher receives the character just
before the current position (for `\b`) and the rest of the string, and
returns the number of characters consumed plus its captures. -/

/-- Auxiliary leftmost search: try the matcher at position `i`, else advance. -/
def searchPrevAux (m : Option Char → List Char → Option (Nat × α)) :
    Option Char → Nat → List Char → Option (Nat × Nat × α)
  | prev, i, [] =>
    match m prev [] with
    | some (n, a) => some (i, n, a)
    | none => none
  | prev, i, c :: rest =>
    match m prev (c :: rest) with
    | some (n, a) => some (i, n, a)
    | none => searchPrevAux m (some c) (i + 1) rest

/-- `re.search` for a boundary-sensitive matcher: returns
`(start, consumed, captures)` of the leftmost match. -/
def searchPrev (m : Option Char → List Char → Option (Nat × α)) (s : List Char) :
    Option (Nat × Nat × α) :=
  searchPrevAux m none 0 s

/-- `re.search` for a matcher that does not look at the preceding character. -/
def searchPlain (m : List Char → Option (Nat × α)) (s : List Char) :
    Option (Nat × Nat × α) :=
  searchPrev (fun _ t => m t) s

/-- Run searches for a list of patterns in order and return the first pattern
that matches anywhere, with its span (the `for pattern in ...: re.search`
loops of `intent_extractor.py`). -/
def firstSearch : List (List Char → Option (Nat × α)) → List Char → Option (Span × α)
  | [], _ => none
  | m :: ms, s =>
    match searchPlain m s with
    | some (i, n, a) => some ((i, i + n), a)
    | none => firstSearch ms s

/-- Scan a sequence of literal words joined by `\s+`. -/
def eatWords : List String → List Char → Option (List Char)
  | [], s => some s
  | [w], s => eatLit w s
  | w :: ws, s =>
    match eatLit w s with
    | none => none
    | some r =>
      match eatWS1 r with
      | none => none
      | some r2 => eatWords ws r2

/-- Matcher for `kw1\s+kw2\s+...\s+NUM` with `NUM = \d+(?:,\d{3})*(?:\.\d+)?`:
the single-keyword price patterns (`under`, `below`, `less than`, ...). -/
def matchKwNum (kws : List String) (s : List Char) : Option (Nat × ℚ) :=
  match eatWords kws s with
  | none => none
  | some r1 =>
    match eatWS1 r1 with
    | none => none
    | some r2 =>
      match eatNum r2 with
      | none => none
      | some (t, r3) => some (s.length - r3.length, parseNum t)

/-- Matcher for `base(?:suffix)?\s+NUM` (`approx(?:imately)?`, `max(?:imum)?`).
Taking the greedy option is equivalent to Python's backtracking here: if the
suffix is consumed, the following `\s+` and digit cannot match at the start of
the suffix text, so skipping the suffix could only move the failure, never
avoid it. -/
def matchOptSuffixNum (base suffix : String) (s : List Char) : Option (Nat × ℚ) :=
  match eatLit base s with
  | none => none
  | some r0 =>
    let r0 := match eatLit suffix r0 with | some r => r | none => r0
    match eatWS1 r0 with
    | none => none
    | some r1 =>
      match eatNum r1 with
      | none => none
      | some (t, r2) => some (s.length - r2.length, parseNum t)

/-- Matcher for `up\s*to\s+NUM`. -/
def matchUpTo (s : List Char) : Option (Nat × ℚ) :=
  match eatLit "up" s with
  | none => none
  | some r0 =>
    match eatLit "to" (eatWS0 r0) with
    | none => none
    | some r1 =>
      match eatWS1 r1 with
      | none => none
      | some r2 =>
        match eatNum r2 with
        | none => none
        | some (t, r3) => some (s.length - r3.length, parseNum t)

/-- Scan `\s+(?:and|to)\s+NUM` — the tail of the `between` range pattern. -/
def eatConnNum (s : List Char) : Option (ℚ × List Char) :=
  match eatWS1 s with
  | none => none
  | some r0 =>
    let conn := match eatLit "and" r0 with
      | some r => some r
      | none => eatLit "to" r0
    match conn with
    | none => none
    | some r1 =>
      match eatWS1 r1 with
      | none => none
      | some r2 =>
        match eatNum r2 with
        | none => none
        | some (t, r3) => some (parseNum t, r3)

/-- Scan `\s+to\s+NUM` — the tail of the remaining range patterns. -/
def eatToNum (s : List Char) : Option (ℚ × List Char) :=
  match eatWS1 s with
  | none => none
  | some r0 =>
    match eatLit "to" r0 with
    | none => none
    | some r1 =>
      match eatWS1 r1 with
      | none => none
      | some r2 =>
        match eatNum r2 with
        | none => none
        | some (t, r3) => some (parseNum t, r3)

/-- Matcher for `between\s+NUM\s+(?:and|to)\s+NUM`. -/
def matchBetween (s : List Char) : Option (Nat × (ℚ × ℚ)) :=
  match eatWords ["between"] s with
  | none => none
  | some r0 =>
    match eatWS1 r0 with
    | none => none
    | some r1 =>
      match eatNum r1 with
      | none => none
      | some (t1, r2) =>
        match eatConnNum r2 with
        | none => none
        | some (v2, r3) => some (s.length - r3.length, (parseNum t1, v2))

/-- Matcher for `from\s+NUM\s+to\s+NUM`. -/
def matchFromTo (s : List Char) : Option (Nat × (ℚ × ℚ)) :=
  match eatLit "from" s with
  | none => none
  | some r0 =>
    match eatWS1 r0 with
    | none => none
    | some r1 =>
      match eatNum r1 with
      | none => none
      | some (t1, r2) =>
        match eatToNum r2 with
        | none => none
        | some (v2, r3) => some (s.length - r3.length, (parseNum t1, v2))

/-- Tail of the dash range pattern: `\s*NUM` after the dash. -/
def matchDashTail (s t1 r2 : List Char) : Option (Nat × (ℚ × ℚ)) :=
  match eatNum (eatWS0 r2) with
  | none => none
  | some (t2, r3) => some (s.length - r3.length, (parseNum t1, parseNum t2))

/-- Matcher for `NUM\s*[-–]\s*NUM`. -/
def matchDashRange (s : List Char) : Option (Nat × (ℚ × ℚ)) :=
  match eatNum s with
  | none => none
  | some (t1, r1) =>
    match eatWS0 r1 with
    | '-' :: r2 => matchDashTail s t1 r2
    | '–' :: r2 => matchDashTail s t1 r2
    | _ => none

/-- Matcher for `in\s+the\s+range\s+of\s+NUM\s+to\s+NUM`. -/
def matchInRangeOf (s : List Char) : Option (Nat × (ℚ × ℚ)) :=
  match eatWords ["in", "the", "range", "of"] s with
  | none => none
  | some r0 =>
    match eatWS1 r0 with
    | none => none
    | some r1 =>
      match eatNum r1 with
      | none => none
      | some (t1, r2) =>
        match eatToNum r2 with
        | none => none
        | some (v2, r3) => some (s.length - r3.length, (parseNum t1, v2))

/-- Matcher for `budget\s+(?:of\s+)?NUM\s+to\s+NUM`.  The optional `of\s+`
group is taken greedily; skipping it would put a digit where `of` just
matched, so the greedy choice agrees with Python's backtracking. -/
def matchBudget (s : List Char) : Option (Nat × (ℚ × ℚ)) :=
  match eatLit "budget" s with
  | none => none
  | some r0 =>
    match eatWS1 r0 with
    | none => none
    | some r1 =>
      let r1 := match eatLit "of" r1 with
        | some ra =>
          match eatWS1 ra with
          | some rb => rb
          | none => r1
        | none => r1
      match eatNum r1 with
      | none => none
      | some (t1, r2) =>
        match eatToNum r2 with
        | none => none
        | some (v2, r3) => some (s.length - r3.length, (parseNum t1, v2))

/-- Matcher for `kw...\s+RNUM` with `RNUM = \d+(?:\.\d+)?`: the rating
patterns `rated above N` and `at least N stars` heads. -/
def matchKwRNum (kws : List String) (s : List Char) : Option (Nat × ℚ) :=
  match eatWords kws s with
  | none => none
  | some r1 =>
    match eatWS1 r1 with
    | none => none
    | some r2 =>
      match eatRNum r2 with
      | none => none
      | some (t, r3) => some (s.length - r3.length, parseNum t)

/-- Matcher for `\b(highly|best)\s+rated\b`. -/
def matchHighlyRated (prev : Option Char) (s : List Char) : Option (Nat × Unit) :=
  if isWordCharO prev then none
  else
    let hd := match eatLit "highly" s with
      | some r => some r
      | none => eatLit "best" s
    match hd with
    | none => none
    | some r0 =>
      match eatWS1 r0 with
      | none => none
      | some r1 =>
        match eatLit "rated" r1 with
        | none => none
        | some r2 =>
          if boundaryAfter r2 then some (s.length - r2.length, ()) else none

/-- Matcher for `rating\s+(?:more\s+than|above|over)\s+RNUM`.  At most one of
the three alternatives can match at a position (distinct first letters), so
trying them in order is Python's behaviour. -/
def matchRatingAbove (s : List Char) : Option (Nat × ℚ) :=
  match eatLit "rating" s with
  | none => none
  | some r0 =>
    match eatWS1 r0 with
    | none => none
    | some r1 =>
      let conn := match eatWords ["more", "than"] r1 with
        | some r => some r
        | none =>
          match eatLit "above" r1 with
          | some r => some r
          | none => eatLit "over" r1
      match conn with
      | none => none
      | some r2 =>
        match eatWS1 r2 with
        | none => none
        | some r3 =>
          match eatRNum r3 with
          | none => none
          | some (t, r4) => some (s.length - r4.length, parseNum t)

/-- Matcher for `at\s+least\s+RNUM\s+stars?`. -/
def matchAtLeastStars (s : List Char) : Option (Nat × ℚ) :=
  match eatWords ["at", "least"] s with
  | none => none
  | some r0 =>
    match eatWS1 r0 with
    | none => none
    | some r1 =>
      match eatRNum r1 with
      | none => none
      | some (t, r2) =>
        match eatWS1 r2 with
        | none => none
        | some r3 =>
          match eatLit "star" r3 with
          | none => none
          | some r4 =>
            let r5 := match eatLit "s" r4 with | some r => r | none => r4
            some (s.length - r5.length, parseNum t)

/-- Matcher for `RNUM\+\s+rating`. -/
def matchNumPlusRating (s : List Char) : Option (Nat × ℚ) :=
  match eatRNum s with
  | none => none
  | some (t, r0) =>
    match eatLit "+" r0 with
    | none => none
    | some r1 =>
      match eatWS1 r1 with
      | none => none
      | some r2 =>
        match eatLit "rating" r2 with
        | none => none
        | some r3 => some (s.length - r3.length, parseNum t)

/-- Matcher for `rating\s+(?:of\s+)?RNUM\+`. -/
def matchRatingOfPlus (s : List Char) : Option (Nat × ℚ) :=
  match eatLit "rating" s with
  | none => none
  | some r0 =>
    match eatWS1 r0 with
    | none => none
    | some r1 =>
      let r1 := match eatLit "of" r1 with
        | some ra =>
          match eatWS1 ra with
          | some rb => rb
          | none => r1
        | none => r1
      match eatRNum r1 with
      | none => none
      | some (t, r2) =>
        match eatLit "+" r2 with
        | none => none
        | some r3 => some (s.length - r3.length, parseNum t)

/-- Characters of the size short-code class `[smlxSMLX]` (the extractors run
on the lower-cased query, so only the lower-case letters can occur). -/
def isSizeChar (c : Char) : Bool := c = 's' || c = 'm' || c = 'l' || c = 'x'

/-- Matcher for `\bsize\s+(\d+|[smlxSMLX]+)\b`, capturing group 1.  Both
branches of the group are greedy runs of word characters followed by `\b`, so
only the maximal run can satisfy the boundary; Python's backtracking over
shorter runs always fails. -/
def matchSizeNum (prev : Option Char) (s : List Char) : Option (Nat × List Char) :=
  if isWordCharO prev then none
  else
    match eatLit "size" s with
    | none => none
    | some r1 =>
      match eatWS1 r1 with
      | none => none
      | some r2 =>
        let ds := r2.takeWhile Char.isDigit
        if ds ≠ [] then
          let r3 := r2.drop ds.length
          if boundaryAfter r3 then some (s.length - r3.length, ds) else none
        else
          let cs := r2.takeWhile isSizeChar
          if cs ≠ [] then
            let r3 := r2.drop cs.length
            if boundaryAfter r3 then some (s.length - r3.length, cs) else none
          else none

/-- Scan `x-?large`. -/
def eatXLarge (s : List Char) : Option (List Char) :=
  match eatLit "x" s with
  | none => none
  | some r =>
    let r := match eatLit "-" r with | some r2 => r2 | none => r
    eatLit "large" r

/-- Scan `xx-?large`. -/
def eatXXLarge (s : List Char) : Option (List Char) :=
  match eatLit "xx" s with
  | none => none
  | some r =>
    let r := match eatLit "-" r with | some r2 => r2 | none => r
    eatLit "large" r

/-- Matcher for `\b(small|medium|large|x-?large|xx-?large)\b`, capturing
group 1.  At any position at most one alternative can match, so trying
them in the written order is Python's behaviour. -/
def matchSizeWord (prev : Option Char) (s : List Char) : Option (Nat × List Char) :=
  if isWordCharO prev then none
  else
    let alt := match eatLit "small" s with
      | some r => some r
      | none =>
        match eatLit "medium" s with
        | some r => some r
        | none =>
          match eatLit "large" s with
          | some r => some r
          | none =>
            match eatXLarge s with
            | some r => some r
            | none => eatXXLarge s
    match alt with
    | none => none
    | some r =>
      if boundaryAfter r then some (s.length - r.length, s.take (s.length - r.length))
      else none

/-- Matcher for `\b([smlxSMLX]{1,3})\b(?=\s|$)`: a standalone run of one to
three size letters followed by whitespace or the end.  A run longer than
three letters can never satisfy the inner `\b` (the next character would be a
word character), matching Python's backtracking. -/
def matchSizeCode (prev : Option Char) (s : List Char) : Option (Nat × List Char) :=
  if isWordCharO prev then none
  else
    let cs := s.takeWhile isSizeChar
    if cs ≠ [] && cs.length ≤ 3 then
      match s.drop cs.length with
      | [] => some (cs.length, cs)
      | c :: _ => if isWS c then some (cs.length, cs) else none
    else none

/-- Matcher for `\bword\b` (used for categories, brands, colors and fuzzy
keywords). -/
def matchWord (w : String) (prev : Option Char) (s : List Char) : Option (Nat × Unit) :=
  if isWordCharO prev then none
  else
    match eatLit w s with
    | none => none
    | some r => if boundaryAfter r then some (s.length - r.length, ()) else none

/-- `re.search(rf'\b{w}\b', s) is not None`. -/
def hasWordIn (w : String) (s : List Char) : Bool :=
  (searchPrev (matchWord w) s).isSome

/-! ## Intent extraction (`app/nlp/intent_extractor.py`) -/

/-- Python truthiness of an optional float (`None` and `0.0` are falsy), as
used by `extract_intent` lines 130 and 226. -/
def truthyQ : Option ℚ → Bool
  | none => false
  | some x => x != 0

/-- The conflict test of `extract_intent` lines 129-132:
`if constraints['price_min'] and constraints['price_max']:` (Python
truthiness, so a bound of `0.0` is treated as unset) followed by
`price_min > price_max`. -/
def conflictFlag : Option ℚ → Option ℚ → Bool
  | some a, some b => (a != 0) && (b != 0) && decide (b < a)
  | _, _ => false

/-- Result of `_extract_price`. -/
structure PriceInfo where
  price_min : Option ℚ
  price_max : Option ℚ
  approximate_price : Bool
  spans : List Span
deriving DecidableEq

/-- The approximate price patterns (`around/approx(imately)?/about/near N`). -/
def approxMatchers : List (List Char → Option (Nat × ℚ)) :=
  [matchKwNum ["around"], matchOptSuffixNum "approx" "imately",
   matchKwNum ["about"], matchKwNum ["near"]]

/-- The range patterns. -/
def rangeMatchers : List (List Char → Option (Nat × (ℚ × ℚ))) :=
  [matchBetween, matchFromTo, matchDashRange, matchInRangeOf, matchBudget]

/-- The upper-bound patterns. -/
def upperMatchers : List (List Char → Option (Nat × ℚ)) :=
  [matchKwNum ["under"], matchKwNum ["below"], matchKwNum ["less", "than"],
   matchKwNum ["cheaper", "than"], matchKwNum ["within"],
   matchOptSuffixNum "max" "imum", matchUpTo, matchKwNum ["not", "more", "than"]]

/-- The lower-bound patterns. -/
def lowerMatchers : List (List Char → Option (Nat × ℚ)) :=
  [matchKwNum ["over"], matchKwNum ["above"], matchKwNum ["more", "than"],
   matchKwNum ["starting", "from"], matchKwNum ["minimum"], matchKwNum ["at", "least"]]

/-- `_extract_price` (lines 143-229).  Approximate patterns return
immediately with a ±15% band rounded to 2 decimals; range patterns return
immediately; otherwise the first matching upper-bound pattern and the first
matching lower-bound pattern both contribute, and the result is returned only
if `price_min or price_max` is truthy (line 226, Python truthiness: a lone
bound of `0.0` is dropped). -/
def extractPrice (q : List Char) : Option PriceInfo :=
  match firstSearch approxMatchers q with
  | some (sp, price) =>
    some { price_min := some (roundHE 2 (qSub price (qMul price (mkRat 15 100)))),
           price_max := some (roundHE 2 (qAdd price (qMul price (mkRat 15 100)))),
           approximate_price := true, spans := [sp] }
  | none =>
    match firstSearch rangeMatchers q with
    | some (sp, v) =>
      some { price_min := some v.1, price_max := some v.2,
             approximate_price := false, spans := [sp] }
    | none =>
      let upper := firstSearch upperMatchers q
      let lower := firstSearch lowerMatchers q
      let pmax := upper.map (fun r => r.2)
      let pmin := lower.map (fun r => r.2)
      let spans :=
        (match upper with | some (sp, _) => [sp] | none => []) ++
        (match lower with | some (sp, _) => [sp] | none => [])
      if truthyQ pmin || truthyQ pmax then
        some { price_min := pmin, price_max := pmax,
               approximate_price := false, spans := spans }
      else none

/-- Result of `_extract_rating`. -/
structure RatingInfo where
  rating_min : Option ℚ
  spans : List Span
deriving DecidableEq

/-- The numeric rating patterns (lines 248-254). -/
def ratingMatchers : List (List Char → Option (Nat × ℚ)) :=
  [matchKwRNum ["rated", "above"], matchRatingAbove, matchAtLeastStars,
   matchNumPlusRating, matchRatingOfPlus]

/-- `_extract_rating` (lines 232-263): the `highly/best rated` special case
(4.5) first, then the numeric patterns in order. -/
def extractRating (q : List Char) : Option RatingInfo :=
  match searchPrev matchHighlyRated q with
  | some (i, n, _) => some { rating_min := some (mkRat 45 10), spans := [(i, i + n)] }
  | none =>
    match firstSearch ratingMatchers q with
    | some (sp, v) => some { rating_min := some v, spans := [sp] }
    | none => none

/-- `_extract_size` (lines 299-315): the three size patterns in order; the
captured group is upper-cased, the full match span is recorded for removal. -/
def extractSize (q : List Char) : Option (List Char × Span) :=
  match searchPrev matchSizeNum q with
  | some (i, n, t) => some (upperL t, (i, i + n))
  | none =>
    match searchPrev matchSizeWord q with
    | some (i, n, t) => some (upperL t, (i, i + n))
    | none =>
      match searchPrev matchSizeCode q with
      | some (i, n, t) => some (upperL t, (i, i + n))
      | none => none

/-- `CATEGORY_SYNONYMS` (a Python dict: insertion order). -/
def categorySynonyms : List (String × String) :=
  [("sneakers", "shoes"), ("footwear", "shoes"), ("earphones", "headphones"),
   ("mobile", "electronics"), ("smartphone", "electronics"), ("phone", "electronics")]

/-- `KNOWN_CATEGORIES` (a Python set; iteration order unspecified — the
written order of the source literal is used here, which agrees with any
order whenever at most one category matches). -/
def knownCategories : List String :=
  ["shoes", "headphones", "laptop", "electronics", "accessories",
   "clothing", "watches", "bags", "furniture", "books"]

/-- `KNOWN_BRANDS` (a Python set; written order, see `knownCategories`). -/
def knownBrands : List String :=
  ["nike", "adidas", "sony", "apple", "samsung", "lg", "dell",
   "hp", "lenovo", "asus", "bose", "jbl", "boat", "realme"]

/-- `COLORS` (a Python set; written order, see `knownCategories`). -/
def colorsList : List String :=
  ["black", "white", "red", "blue", "green", "yellow", "orange",
   "purple", "pink", "brown", "grey", "gray", "silver", "gold"]

/-- `FUZZY_KEYWORDS` (a Python set; order irrelevant — only membership of a
match is used). -/
def fuzzyKeywords : List String :=
  ["cheap", "budget", "affordable", "economical", "inexpensive",
   "premium", "expensive", "luxury", "high-end"]

/-- Python `str.capitalize()` on an ASCII string. -/
def capitalizeS (s : String) : String :=
  match s.data with
  | [] => s
  | c :: rest => String.mk (c.toUpper :: rest.map Char.toLower)

/-- `_extract_category` (lines 266-278): synonyms first, then known
categories. -/
def extractCategory (q : List Char) : Option String :=
  match categorySynonyms.find? (fun p => hasWordIn p.1 q) with
  | some p => some p.2
  | none => knownCategories.find? (fun c => hasWordIn c q)

/-- `_extract_brand` (lines 281-287): first known brand found, capitalized. -/
def extractBrand (q : List Char) : Option String :=
  (knownBrands.find? (fun b => hasWordIn b q)).map capitalizeS

/-- `_extract_color` (lines 290-296). -/
def extractColor (q : List Char) : Option String :=
  colorsList.find? (fun c => hasWordIn c q)

/-- `_has_fuzzy_price_keywords` (lines 318-323). -/
def hasFuzzy (q : List Char) : Bool :=
  fuzzyKeywords.any (fun k => hasWordIn k q)

/-- Insert into a sorted list, before the first element `b` with `le a b`
(so an element is placed before every equal element already present). -/
def stableInsert (le : α → α → Bool) (a : α) : List α → List α
  | [] => [a]
  | b :: t => if le a b then a :: b :: t else b :: stableInsert le a t

/-- Stable insertion sort.  CPython's `list.sort` is a stable sort, and for a
total transitive comparison the stable sorted permutation of a list is
unique, so this realises exactly the semantics of `list.sort`. -/
def stableSort (le : α → α → Bool) : List α → List α
  | [] => []
  | a :: t => stableInsert le a (stableSort le t)

/-- Lexicographic order on spans, as Python compares `(start, end)` tuples. -/
def spanLe (a b : Span) : Bool :=
  decide (a.1 < b.1) || (decide (a.1 = b.1) && decide (a.2 ≤ b.2))

/-- The fallback of `_clean_semantic_query` lines 351-353: an empty result
after removal is replaced by the literal string `"products"`. -/
def cleanFallback (cleaned : List Char) : List Char :=
  if cleaned = [] then "products".data else cleaned

/-- `_clean_semantic_query` (lines 326-355): with no spans, the stripped
query; otherwise remove the spans in descending start order, collapse
whitespace, strip, and fall back to `"products"` when nothing remains.
`removal_spans.sort(reverse=True)` is Python's stable sort with the reversed
tuple order, realised here by the stable sort on the flipped comparison. -/
def cleanSemanticQuery (query : List Char) (spans : List Span) : List Char :=
  if spans = [] then trimL query
  else
    cleanFallback (trimL (collapseWS
      ((stableSort (fun a b => spanLe b a) spans).foldl
        (fun r sp => r.take sp.1 ++ r.drop sp.2) query)))

/-- `Constraints` of the data model: the constraint dict initialised in
`extract_intent` lines 71-82. -/
structure Constraints where
  price_min : Option ℚ := none
  price_max : Option ℚ := none
  rating_min : Option ℚ := none
  category : Option String := none
  brand : Option String := none
  color : Option String := none
  size : Option String := none
  approximate_price : Bool := false
  fuzzy_price : Bool := false
  conflict : Bool := false
deriving DecidableEq

/-- The result of `extract_intent`. -/
structure Intent where
  semantic_query : String
  constraints : Constraints
deriving DecidableEq

/-- The removal spans accumulated by `extract_intent` (price spans, then
rating spans, then size spans — lines 93, 99, 123), computed on the
lower-cased query. -/
def removalSpansL (ql : List Char) : List Span :=
  (match extractPrice ql with | some pi => pi.spans | none => []) ++
  (match extractRating ql with | some ri => ri.spans | none => []) ++
  (match extractSize ql with | some si => [si.2] | none => [])

/-- `extract_intent` (lines 56-140): run the extractors on the lower-cased
query, detect the price conflict with Python truthiness, and clean the
original-case query using the accumulated removal spans. -/
def extractIntent (query : String) : Intent :=
  let ql := lowerL query.data
  let priceInfo := extractPrice ql
  let pmin := match priceInfo with | some pi => pi.price_min | none => none
  let pmax := match priceInfo with | some pi => pi.price_max | none => none
  let approx := match priceInfo with | some pi => pi.approximate_price | none => false
  let ratingInfo := extractRating ql
  let rmin := match ratingInfo with | some ri => ri.rating_min | none => none
  let sizeInfo := extractSize ql
  { semantic_query := String.mk (cleanSemanticQuery query.data (removalSpansL ql)),
    constraints :=
      { price_min := pmin, price_max := pmax, rating_min := rmin,
        category := extractCategory ql, brand := extractBrand ql,
        color := extractColor ql,
        size := match sizeInfo with | some si => some (String.mk si.1) | none => none,
        approximate_price := approx,
        fuzzy_price := hasFuzzy ql,
        conflict := conflictFlag pmin pmax } }

/-! ## Filter merging and the filter predicate
(`app/services/search_service.py`) -/

/-- The caller-facing `SearchFilters` Pydantic model (lines 15-38); every
field is optional. -/
structure SearchFilters where
  price_min : Option ℚ := none
  price_max : Option ℚ := none
  max_price : Option ℚ := none
  min_rating : Option ℚ := none
  category : Option String := none
  brand : Option String := none
  color : Option String := none
  size : Option String := none
  approximate_price : Option Bool := none
  fuzzy_price : Option Bool := none
  conflict : Option Bool := none
deriving DecidableEq

/-- The merged filter object produced by `_merge_filters` (a `SearchFilters`
whose flag fields are set from the constraints, plus the `_nlp_category`
marker attached at line 298; its `max_price` field is never set, so it is
`none`). -/
structure MergedFilters where
  price_min : Option ℚ
  price_max : Option ℚ
  max_price : Option ℚ
  min_rating : Option ℚ
  category : Option String
  brand : Option String
  color : Option String
  size : Option String
  approximate_price : Bool
  fuzzy_price : Bool
  conflict : Bool
  nlpCategory : Bool
deriving DecidableEq

/-- A product record as read from the product repository.  String-valued
fields default to `""` when absent (`product.get(..., '')`); `price` and
`rating` may be `None`. -/
structure Product where
  id : String := ""
  title : String := ""
  description : String := ""
  category : String := ""
  brand : String := ""
  price : Option ℚ := none
  rating : Option ℚ := none
deriving DecidableEq

/-- A `SearchResult` (lines 41-52). -/
structure SearchResult where
  id : String
  title : String
  price : Option ℚ
  rating : Option ℚ
  similarity_score : ℚ
  description : Option String := none
  category : Option String := none
  explanation : Option String := none
deriving DecidableEq

/-- `is_empty` of `_merge_filters` (lines 203-210) on an optional number:
`None` or the numeric value zero. -/
def isEmptyQ : Option ℚ → Bool
  | none => true
  | some x => x == 0

/-- `is_empty` on an optional string: `None` or blank/whitespace-only. -/
def isEmptyS : Option String → Bool
  | none => true
  | some s => trimL s.data == []

/-- `is_empty` on an optional boolean (`bool` is an `int` in Python, so
`False` is the numeric value zero and is empty). -/
def isEmptyB : Option Bool → Bool
  | none => true
  | some b => !b

/-- Every caller field is empty (absent, blank string, or numeric zero) —
the hypothesis of the pass-through law, for a possibly absent caller filter
object. -/
def callerEmptyAll : Option SearchFilters → Bool
  | none => true
  | some f =>
    isEmptyQ f.price_min && isEmptyQ f.price_max && isEmptyQ f.max_price &&
    isEmptyQ f.min_rating && isEmptyS f.category && isEmptyS f.brand &&
    isEmptyS f.color && isEmptyS f.size && isEmptyB f.approximate_price &&
    isEmptyB f.fuzzy_price && isEmptyB f.conflict

/-- `ui_set_min` of `_merge_filters` line 267: the caller supplied a
non-empty `price_min`. -/
def uiSetMinF (f : SearchFilters) : Bool := !isEmptyQ f.price_min

/-- `ui_set_max` of `_merge_filters` line 268: the caller supplied a
non-empty `price_max` or legacy `max_price`. -/
def uiSetMaxF (f : SearchFilters) : Bool :=
  !isEmptyQ f.price_max || !isEmptyQ f.max_price

/-- The `price_min` after caller substitution (lines 228-229). -/
def substMinF (nlp : Constraints) (f : SearchFilters) : Option ℚ :=
  if uiSetMinF f then f.price_min else nlp.price_min

/-- The `price_max` after caller substitution (lines 231-235): the primary
field wins over the legacy alias, the first non-empty of the two wins over
the NLP value. -/
def substMaxF (nlp : Constraints) (f : SearchFilters) : Option ℚ :=
  if !isEmptyQ f.price_max then f.price_max
  else if !isEmptyQ f.max_price then f.max_price
  else nlp.price_max

/-- The conflict recomputation of `_merge_filters` lines 277-280:
`price_min is not None and price_max is not None and price_min > price_max`
(note: `is not None`, not truthiness — unlike the extractor's check). -/
def conflictRecompute : Option ℚ → Option ℚ → Bool
  | some a, some b => decide (b < a)
  | _, _ => false

/-- `(not ui_filters or is_empty(ui_filters.category))` of line 299. -/
def callerCatEmpty : Option SearchFilters → Bool
  | none => true
  | some f => isEmptyS f.category

/-- `_merge_filters` (lines 185-301): start from the NLP constraints,
substitute each non-empty caller field, clear an NLP-originated price bound
when the caller supplied any price bound and the substituted pair conflicts,
recompute `conflict` from the final pair, and mark whether the final category
is the (unoverridden) NLP category. -/
def mergeFilters (nlp : Constraints) (ui : Option SearchFilters) : MergedFilters :=
  let price_min := match ui with | some f => substMinF nlp f | none => nlp.price_min
  let price_max := match ui with | some f => substMaxF nlp f | none => nlp.price_max
  let min_rating := match ui with
    | some f => if !isEmptyQ f.min_rating then f.min_rating else nlp.rating_min
    | none => nlp.rating_min
  let category := match ui with
    | some f => if !isEmptyS f.category then f.category else nlp.category
    | none => nlp.category
  let brand := match ui with
    | some f => if !isEmptyS f.brand then f.brand else nlp.brand
    | none => nlp.brand
  let color := match ui with
    | some f => if !isEmptyS f.color then f.color else nlp.color
    | none => nlp.color
  let size := match ui with
    | some f => if !isEmptyS f.size then f.size else nlp.size
    | none => nlp.size
  let uiSetMin := match ui with | some f => uiSetMinF f | none => false
  let uiSetMax := match ui with | some f => uiSetMaxF f | none => false
  let uiHasPrice := uiSetMin || uiSetMax
  let clear := uiHasPrice && conflictRecompute price_min price_max
  let price_min := if clear && !uiSetMin then none else price_min
  let price_max := if clear && !uiSetMax then none else price_max
  let conflict := conflictRecompute price_min price_max
  { price_min := price_min, price_max := price_max, max_price := none,
    min_rating := min_rating, category := category, brand := brand,
    color := color, size := size,
    approximate_price := nlp.approximate_price, fuzzy_price := nlp.fuzzy_price,
    conflict := conflict,
    nlpCategory := decide (category = nlp.category) && callerCatEmpty ui }

/-- Python truthiness of an optional string (`None` and `""` are falsy; a
whitespace-only string is truthy). -/
def truthyS : Option String → Bool
  | none => false
  | some s => s != ""

/-- `filters.price_max or filters.max_price` (line 328): Python `or` falls
through on falsy values, so a `price_max` of `0.0` falls back to the legacy
alias. -/
def effectiveMax (f : MergedFilters) : Option ℚ :=
  if truthyQ f.price_max then f.price_max else f.max_price

/-- `_passes_filters` (lines 303-367): fail-open on `conflict`; reject on a
violated set bound (a missing product price/rating always fails a set
bound); category is checked only when it did not come from the NLP
extractor; brand, color and size use case-insensitive substring containment
(color/size against title plus description). -/
def passesFilters (pr : Product) (f : MergedFilters) : Bool :=
  if f.conflict then true
  else if (match f.price_min with
      | some m => (match pr.price with | none => true | some p => decide (p < m))
      | none => false) then false
  else if (match effectiveMax f with
      | some m => (match pr.price with | none => true | some p => decide (m < p))
      | none => false) then false
  else if (match f.min_rating with
      | some m => (match pr.rating with | none => true | some r => decide (r < m))
      | none => false) then false
  else if (truthyS f.category && !f.nlpCategory &&
      !containsSub (lowerL (f.category.getD "").data) (lowerL pr.category.data)) then false
  else if (truthyS f.brand &&
      !containsSub (lowerL (f.brand.getD "").data) (lowerL pr.brand.data)) then false
  else if (truthyS f.color &&
      !containsSub (lowerL (f.color.getD "").data)
        (lowerL (pr.title ++ " " ++ pr.description).data)) then false
  else if (truthyS f.size &&
      !containsSub (lowerL (f.size.getD "").data)
        (lowerL (pr.title ++ " " ++ pr.description).data)) then false
  else true

/-! ## Re-ranking (`app/services/ranking_service.py`) -/

/-- `self.alpha_click = 0.05` (line 22). -/
def alphaClick : ℚ := mkRat 5 100

/-- `self.max_boost = 0.5` (line 23). -/
def maxBoost : ℚ := mkRat 1 2

/-- The click count used for a result: the behaviour metrics mapping with
missing entries defaulting to `0` (`metrics.get(id, {"clicks": 0})`,
`.get("clicks", 0)`). -/
def clicksOf (metrics : String → Option Nat) (id : String) : Nat :=
  (metrics id).getD 0

/-- The per-result score adjustment of `apply_ranking` (lines 51-67):
`boost = min(max_boost, clicks * alpha_click)`;
`new_score = round(similarity_score + boost, 4)`. -/
def adjustScore (metrics : String → Option Nat) (r : SearchResult) : SearchResult :=
  { r with similarity_score :=
      roundHE 4 (qAdd r.similarity_score
        (qMin maxBoost (qMul (clicksOf metrics r.id : ℚ) alphaClick))) }

/-- The comparison of `reranked_results.sort(key=..., reverse=True)`
(line 75): a stable sort, descending by adjusted score. -/
def scoreDescLE (a b : SearchResult) : Bool :=
  decide (b.similarity_score ≤ a.similarity_score)

/-- `apply_ranking` (lines 25-77): empty input is returned as is; otherwise
every score is adjusted and the list is stably sorted by adjusted score
descending (CPython's `list.sort` is stable, and with `reverse=True`
elements with equal keys keep their relative order; a stable descending
sort is extensionally unique and is realised here by `stableSort` with
the flipped comparison). -/
def applyRanking (metrics : String → Option Nat) (results : List SearchResult) :
    List SearchResult :=
  if results = [] then results
  else stableSort scoreDescLE (results.map (adjustScore metrics))

/-! ## The search pipeline (`app/services/search_service.py`, `search`) -/

/-- `similarity = 1.0 / (1.0 + distance)` rounded to 4 decimals, and the
construction of a `SearchResult` from a product (lines 154-168). -/
def mkSearchResult (p : Product) (dist : ℚ) : SearchResult :=
  { id := p.id, title := p.title, price := p.price, rating := p.rating,
    description := some p.description, category := some p.category,
    similarity_score := roundHE 4 (qDiv 1 (qAdd 1 dist)), explanation := none }

/-- The candidate loop of `search` (lines 138-168): walk `(pid, distance)`
pairs in order, stop once `limit` results are collected, skip missing
products, and keep the products that pass the merged filters. -/
def collectResults (getProduct : String → Option Product) (merged : MergedFilters)
    (limit : Nat) : List (String × ℚ) → List SearchResult → List SearchResult
  | [], acc => acc
  | (pid, d) :: rest, acc =>
    if limit ≤ acc.length then acc
    else
      match getProduct pid with
      | none => collectResults getProduct merged limit rest acc
      | some p =>
        if passesFilters p merged then
          collectResults getProduct merged limit rest (acc ++ [mkSearchResult p d])
        else collectResults getProduct merged limit rest acc

/-- `ExplanationOrchestrator.enrich_results`: attach an explanation to every
result; the generator itself (`explanation_service.generate_explanation`) is
an oracle parameter receiving the query, the product context drawn from the
result (title, category, description) and the score. -/
def enrichResults (gen : String → String → Option String → Option String → ℚ → String)
    (results : List SearchResult) (query : String) : List SearchResult :=
  if results = [] then results
  else results.map fun r =>
    { r with explanation := some (gen query r.title r.category r.description r.similarity_score) }

/-- `SearchService.search` (lines 83-183), with the external collaborators
as parameters: `gen` the explanation generator, `getProduct` the product
store, `metrics` the behaviour store, and `(productIds, distances)` the
response of the vector index (already ordered by ascending distance).
Zero candidates short-circuit to the empty list (lines 133-135); otherwise
candidates are filtered in order up to `limit`, then re-ranked and
enriched. -/
def searchImpl (gen : String → String → Option String → Option String → ℚ → String)
    (getProduct : String → Option Product) (metrics : String → Option Nat)
    (productIds : List String) (distances : List ℚ)
    (query : String) (filters : Option SearchFilters) (limit : Nat) :
    List SearchResult :=
  let intent := extractIntent query
  let merged := mergeFilters intent.constraints filters
  if productIds = [] then []
  else
    let results := collectResults getProduct merged limit (productIds.zip distances) []
    if results = [] then results
    else enrichResults gen (applyRanking metrics results) query

/-! ## Bridge lemmas: the computable wrappers equal the standard operations -/

theorem qAdd_eq (a b : ℚ) : qAdd a b = a + b := (Rat.add_def' a b).symm

theorem qSub_eq (a b : ℚ) : qSub a b = a - b := (Rat.sub_def' a b).symm

theorem qMul_eq (a b : ℚ) : qMul a b = a * b := by
  conv_rhs => rw [← Rat.num_div_den a, ← Rat.num_div_den b]
  rw [div_mul_div_comm, qMul, Rat.mkRat_eq_divInt, Rat.divInt_eq_div]
  push_cast
  ring

theorem qDiv_eq (a b : ℚ) : qDiv a b = a / b := (Rat.div_def' a b).symm

theorem qMin_eq (a b : ℚ) : qMin a b = min a b := by
  unfold qMin
  split
  · next h =>
    have hba : b < a := h
    exact (min_eq_right hba.le).symm
  · next h =>
    have hab : a ≤ b := le_of_not_lt fun h' => h h'
    exact (min_eq_left hab).symm

theorem qFloor_eq (x : ℚ) : x.floor = ⌊x⌋ :=
  (Rat.floor_def' x).trans Rat.floor_def.symm

/-- Rounding an integer-valued rational to the nearest integer is exact. -/
theorem roundHEInt_intCast (n : ℤ) : roundHEInt ((n : ℚ)) = n := by
  have hfl : ((n : ℚ)).floor = n := by rw [qFloor_eq, Int.floor_intCast]
  have hsub : qSub (n : ℚ) (((n : ℚ)).floor : ℚ) = 0 := by
    rw [hfl, qSub_eq, sub_self]
  have hlt : Rat.blt 0 (mkRat 1 2) = true := by decide
  rw [roundHEInt, hsub, hlt]
  simp [hfl]

/-- Python's `round(x, k)` is exact on multiples of `10⁻ᵏ`. -/
theorem roundHE_exact (k : Nat) (z : ℤ) :
    roundHE k ((z : ℚ) / (10 : ℚ) ^ k) = (z : ℚ) / (10 : ℚ) ^ k := by
  have hpow : ((10 : ℚ) ^ k) ≠ 0 := by positivity
  have hcast : (((10 ^ k : ℕ) : ℚ)) = (10 : ℚ) ^ k := by push_cast; ring
  have harg : qMul ((z : ℚ) / (10 : ℚ) ^ k) ((10 ^ k : ℕ) : ℚ) = (z : ℚ) := by
    rw [qMul_eq, hcast, div_mul_cancel₀ _ hpow]
  rw [roundHE, harg, roundHEInt_intCast, Rat.divInt_eq_div]
  push_cast
  ring

/-! ## Helper lemmas about the pipeline -/

/-- The conflict flag of `extract_intent` is exactly the truthiness test of
lines 129-132 applied to the extracted bounds. -/
theorem extractIntent_conflict (q : String) :
    (extractIntent q).constraints.conflict =
      conflictFlag (extractIntent q).constraints.price_min
        (extractIntent q).constraints.price_max := rfl

/-- The semantic query of `extract_intent` is the cleaning of the original
query by the accumulated removal spans. -/
theorem extractIntent_semantic (q : String) :
    (extractIntent q).semantic_query =
      String.mk (cleanSemanticQuery q.data (removalSpansL (lowerL q.data))) := rfl

/-- `_merge_filters` always recomputes `conflict` from the final price pair
(lines 276-280); it is never carried over from the input constraints. -/
theorem mergeFilters_conflict_recomputed (c : Constraints) (ui : Option SearchFilters) :
    (mergeFilters c ui).conflict =
      conflictRecompute (mergeFilters c ui).price_min (mergeFilters c ui).price_max := rfl

/-- The filter predicate accepts everything when the conflict flag is set
(lines 317-320). -/
theorem passesFilters_of_conflict (pr : Product) (f : MergedFilters)
    (h : f.conflict = true) : passesFilters pr f = true := by
  simp [passesFilters, h]

/-! ## Lemmas about the stable sort -/

theorem stableInsert_perm (le : α → α → Bool) (a : α) (l : List α) :
    (stableInsert le a l).Perm (a :: l) := by
  induction l with
  | nil => simp [stableInsert]
  | cons b t ih =>
    rw [stableInsert]
    split
    · exact List.Perm.refl _
    · exact (ih.cons b).trans (List.Perm.swap a b t)

theorem stableSort_perm (le : α → α → Bool) (l : List α) :
    (stableSort le l).Perm l := by
  induction l with
  | nil => simp [stableSort]
  | cons a t ih =>
    rw [stableSort]
    exact (stableInsert_perm le a _).trans (ih.cons a)

theorem mem_stableInsert (le : α → α → Bool) (a x : α) (l : List α) :
    x ∈ stableInsert le a l ↔ x = a ∨ x ∈ l := by
  rw [(stableInsert_perm le a l).mem_iff, List.mem_cons]

theorem stableInsert_pairwise (le : α → α → Bool)
    (htrans : ∀ a b c, le a b = true → le b c = true → le a c = true)
    (htotal : ∀ a b, le a b = true ∨ le b a = true) (a : α) (l : List α)
    (h : l.Pairwise (fun x y => le x y = true)) :
    (stableInsert le a l).Pairwise (fun x y => le x y = true) := by
  induction l with
  | nil => simp [stableInsert]
  | cons b t ih =>
    rcases List.pairwise_cons.mp h with ⟨hb, ht⟩
    rw [stableInsert]
    split
    · next hab =>
      refine List.pairwise_cons.mpr ⟨?_, h⟩
      intro x hx
      rcases List.mem_cons.mp hx with rfl | hx'
      · exact hab
      · exact htrans a b x hab (hb x hx')
    · next hab =>
      have hba : le b a = true := by
        rcases htotal a b with h' | h'
        · exact absurd h' hab
        · exact h'
      refine List.pairwise_cons.mpr ⟨?_, ih ht⟩
      intro x hx
      rcases (mem_stableInsert le a x t).mp hx with rfl | hx'
      · exact hba
      · exact hb x hx'

theorem stableSort_pairwise (le : α → α → Bool)
    (htrans : ∀ a b c, le a b = true → le b c = true → le a c = true)
    (htotal : ∀ a b, le a b = true ∨ le b a = true) (l : List α) :
    (stableSort le l).Pairwise (fun x y => le x y = true) := by
  induction l with
  | nil => simp [stableSort]
  | cons a t ih =>
    rw [stableSort]
    exact stableInsert_pairwise le htrans htotal a _ ih

theorem stableInsert_filter (le : α → α → Bool) (p : α → Bool) (a : α) (l : List α)
    (ha : p a = true → ∀ b, p b = true → le a b = true) :
    (stableInsert le a l).filter p =
      if p a then a :: l.filter p else l.filter p := by
  induction l with
  | nil => cases hpa : p a <;> simp [stableInsert, List.filter_cons, hpa]
  | cons b t ih =>
    rw [stableInsert]
    by_cases hab : le a b = true
    · rw [if_pos hab, List.filter_cons]
    · rw [if_neg hab]
      by_cases hpa : p a = true
      · have hpb : p b = false := by
          rcases Bool.eq_false_or_eq_true (p b) with h' | h'
          · exact absurd (ha hpa b h') hab
          · exact h'
        simp [List.filter_cons, hpa, hpb, ih]
      · have hpa' : p a = false := by simpa using hpa
        simp [List.filter_cons, hpa', ih]

/-- Stability of the sort: the sublist of elements with any fixed property
that forces mutual `le` keeps its relative order. -/
theorem stableSort_filter (le : α → α → Bool) (p : α → Bool)
    (hcomp : ∀ a b, p a = true → p b = true → le a b = true) (l : List α) :
    (stableSort le l).filter p = l.filter p := by
  induction l with
  | nil => simp [stableSort]
  | cons a t ih =>
    rw [stableSort, stableInsert_filter le p a _ (fun hpa b hpb => hcomp a b hpa hpb), ih,
      List.filter_cons]

/-! ## Helper lemmas about re-ranking and the search loop -/

theorem applyRanking_perm (metrics : String → Option Nat) (l : List SearchResult) :
    (applyRanking metrics l).Perm (l.map (adjustScore metrics)) := by
  unfold applyRanking
  split
  · next h => subst h; simp
  · exact stableSort_perm _ _

theorem length_applyRanking (metrics : String → Option Nat) (l : List SearchResult) :
    (applyRanking metrics l).length = l.length := by
  rw [(applyRanking_perm metrics l).length_eq, List.length_map]

theorem length_enrichResults (gen : String → String → Option String → Option String → ℚ → String)
    (rs : List SearchResult) (q : String) :
    (enrichResults gen rs q).length = rs.length := by
  unfold enrichResults
  split
  · rfl
  · rw [List.length_map]

theorem collectResults_length_le (getProduct : String → Option Product)
    (merged : MergedFilters) (limit : Nat) (cands : List (String × ℚ)) :
    ∀ acc : List SearchResult, acc.length ≤ limit →
      (collectResults getProduct merged limit cands acc).length ≤ limit := by
  induction cands with
  | nil => intro acc h; simpa [collectResults] using h
  | cons hd tl ih =>
    intro acc h
    obtain ⟨pid, d⟩ := hd
    rw [collectResults]
    by_cases hlim : limit ≤ acc.length
    · rw [if_pos hlim]; exact h
    · rw [if_neg hlim]
      have hlt : acc.length < limit := Nat.lt_of_not_le hlim
      cases hgp : getProduct pid with
      | none => exact ih acc h
      | some p =>
        dsimp only
        by_cases hp : passesFilters p merged = true
        · rw [if_pos hp]
          exact ih _ (by simpa using hlt)
        · rw [if_neg hp]
          exact ih acc h

/-- The value of `alpha_click` (`0.05`). -/
theorem alphaClick_eq : alphaClick = 5 / 100 := by
  rw [alphaClick, Rat.mkRat_eq_divInt, Rat.divInt_eq_div]
  norm_num

/-- The value of `max_boost` (`0.5`). -/
theorem maxBoost_eq : maxBoost = 1 / 2 := by
  rw [maxBoost, Rat.mkRat_eq_divInt, Rat.divInt_eq_div]
  norm_num

/-- The click boost is a nonnegative multiple of `10⁻⁴`. -/
theorem exists_boost_int (c : Nat) :
    ∃ k : ℤ, 0 ≤ k ∧ min maxBoost ((c : ℚ) * alphaClick) = (k : ℚ) / 10 ^ 4 := by
  rw [alphaClick_eq, maxBoost_eq]
  rcases le_total ((c : ℚ) * (5 / 100)) (1 / 2) with h | h
  · refine ⟨500 * c, by positivity, ?_⟩
    rw [min_eq_right h]
    push_cast
    ring
  · refine ⟨5000, by norm_num, ?_⟩
    rw [min_eq_left h]
    norm_num

/-- The comparison used by the re-ranking sort is transitive. -/
theorem scoreDescLE_trans (x y z : SearchResult)
    (h1 : scoreDescLE x y = true) (h2 : scoreDescLE y z = true) :
    scoreDescLE x z = true := by
  simp only [scoreDescLE, decide_eq_true_eq] at h1 h2 ⊢
  exact le_trans h2 h1

/-- The comparison used by the re-ranking sort is total. -/
theorem scoreDescLE_total (x y : SearchResult) :
    scoreDescLE x y = true ∨ scoreDescLE y x = true := by
  simp only [scoreDescLE, decide_eq_true_eq]
  exact le_total y.similarity_score x.similarity_score

/-- Re-ranked results are ordered by adjusted score descending. -/
theorem applyRanking_sorted (metrics : String → Option Nat) (l : List SearchResult) :
    (applyRanking metrics l).Pairwise
      (fun x y => y.similarity_score ≤ x.similarity_score) := by
  unfold applyRanking
  split
  · next h => subst h; exact List.Pairwise.nil
  · exact (stableSort_pairwise scoreDescLE scoreDescLE_trans scoreDescLE_total _).imp
      (fun h => by simpa [scoreDescLE, decide_eq_true_eq] using h)

/-- Enrichment does not change scores, so it preserves the score ordering. -/
theorem enrichResults_sorted (gen : String → String → Option String → Option String → ℚ → String)
    (rs : List SearchResult) (q : String)
    (h : rs.Pairwise (fun x y => y.similarity_score ≤ x.similarity_score)) :
    (enrichResults gen rs q).Pairwise
      (fun x y => y.similarity_score ≤ x.similarity_score) := by
  unfold enrichResults
  split
  · exact h
  · rw [List.pairwise_map]
    exact h

/-- On a score that is a multiple of `10⁻⁴`, the adjusted score is exactly
`old + min(max_boost, clicks · alpha_click)` — the rounding is exact. -/
theorem adjustScore_eq (metrics : String → Option Nat) (r : SearchResult) (m : ℤ)
    (hm : r.similarity_score = (m : ℚ) / 10 ^ 4) :
    (adjustScore metrics r).similarity_score =
      r.similarity_score + min maxBoost ((clicksOf metrics r.id : ℚ) * alphaClick) := by
  obtain ⟨k, hk0, hke⟩ := exists_boost_int (clicksOf metrics r.id)
  have h1 : (adjustScore metrics r).similarity_score =
      roundHE 4 (qAdd r.similarity_score
        (qMin maxBoost (qMul (clicksOf metrics r.id : ℚ) alphaClick))) := rfl
  rw [h1, qAdd_eq, qMin_eq, qMul_eq, hke, hm]
  have h2 : (m : ℚ) / 10 ^ 4 + (k : ℚ) / 10 ^ 4 = ((m + k : ℤ) : ℚ) / (10 : ℚ) ^ 4 := by
    push_cast
    ring
  rw [h2, roundHE_exact]

/-! ## Claim C1 -/

/-- C1 counterexample: for the query `"over 5000 under 0"` the extractor sets
`price_min = 5000` and `price_max = 0` — both bounds set with
`price_min > price_max` — yet `conflict` is `false`, because the truthiness
test of line 130 (`if constraints['price_min'] and constraints['price_max']`)
treats the extracted bound `0.0` as unset.  This refutes the claimed
iff as stated. -/
theorem claim1_counterexample :
    (extractIntent "over 5000 under 0").constraints.price_min = some 5000 ∧
    (extractIntent "over 5000 under 0").constraints.price_max = some 0 ∧
    (0 : ℚ) < 5000 ∧
    (extractIntent "over 5000 under 0").constraints.conflict = false ∧
    ¬ ((extractIntent "over 5000 under 0").constraints.conflict = true ↔
        ∃ a b, (extractIntent "over 5000 under 0").constraints.price_min = some a ∧
          (extractIntent "over 5000 under 0").constraints.price_max = some b ∧ b < a) :=
  ⟨by decide, by decide, by decide, by decide,
   fun h => absurd (h.mpr ⟨5000, 0, by decide, by decide, by decide⟩) (by decide)⟩

/-- C1 (amended): in the Constraints produced by `extract`, `conflict = true`
iff `price_min` and `price_max` are both set **and nonzero** and
`price_min > price_max` (the code tests the two bounds with Python
truthiness, under which a bound of `0.0` counts as unset). -/
theorem claim1_conflict_iff (q : String) :
    (extractIntent q).constraints.conflict = true ↔
      ∃ a b, (extractIntent q).constraints.price_min = some a ∧
        (extractIntent q).constraints.price_max = some b ∧
        a ≠ 0 ∧ b ≠ 0 ∧ b < a := by
  rw [extractIntent_conflict]
  cases hmin : (extractIntent q).constraints.price_min with
  | none => simp [conflictFlag]
  | some a =>
    cases hmax : (extractIntent q).constraints.price_max with
    | none => simp [conflictFlag]
    | some b => simp [conflictFlag, and_assoc]

/-- C1 witness: the amended iff instantiated at the query
`"over 5000 under 2000"`. -/
theorem claim1_witness :
    (extractIntent "over 5000 under 2000").constraints.conflict = true ↔
      ∃ a b, (extractIntent "over 5000 under 2000").constraints.price_min = some a ∧
        (extractIntent "over 5000 under 2000").constraints.price_max = some b ∧
        a ≠ 0 ∧ b ≠ 0 ∧ b < a :=
  claim1_conflict_iff "over 5000 under 2000"

/-! ## Claim C2 -/

/-- C2 counterexample: `"over 100 under 0"` extracts the lower bound `100`
and the upper bound `0` — so `price_min > price_max` — yet the extracted
constraints do **not** carry `conflict = true` (Python truthiness treats the
`0.0` bound as unset at line 130). -/
theorem claim2_counterexample :
    (extractIntent "over 100 under 0").constraints.price_min = some 100 ∧
    (extractIntent "over 100 under 0").constraints.price_max = some 0 ∧
    (0 : ℚ) < 100 ∧
    ¬ (extractIntent "over 100 under 0").constraints.conflict = true :=
  ⟨by decide, by decide, by decide, by decide⟩

/-- Merging with an absent caller keeps both extracted bounds, and the
recomputed conflict flag is set when they disagree. -/
theorem mergeFilters_none_conflict (c : Constraints) (a b : ℚ)
    (hmin : c.price_min = some a) (hmax : c.price_max = some b) (hba : b < a) :
    (mergeFilters c none).conflict = true := by
  simp [mergeFilters, conflictRecompute, hmin, hmax, hba]

/-- C2 (amended): for every query from which both a lower and an upper
numeric price bound are extracted with `price_min > price_max` **and both
bounds nonzero**, the extracted constraints carry `conflict = true`, and the
filter predicate on the merged filters then accepts every product
(fail-open). -/
theorem claim2_conflict_failopen (q : String) (a b : ℚ)
    (hmin : (extractIntent q).constraints.price_min = some a)
    (hmax : (extractIntent q).constraints.price_max = some b)
    (ha : a ≠ 0) (hb : b ≠ 0) (hba : b < a) :
    (extractIntent q).constraints.conflict = true ∧
    ∀ pr : Product,
      passesFilters pr (mergeFilters (extractIntent q).constraints none) = true := by
  constructor
  · rw [extractIntent_conflict, hmin, hmax]
    simp [conflictFlag, ha, hb, hba]
  · intro pr
    exact passesFilters_of_conflict pr _ (mergeFilters_none_conflict _ a b hmin hmax hba)

/-- C2 witness: the amended claim instantiated at `"over 5000 under 2000"`
(bounds 5000 and 2000). -/
theorem claim2_witness :
    (extractIntent "over 5000 under 2000").constraints.conflict = true ∧
    ∀ pr : Product,
      passesFilters pr
        (mergeFilters (extractIntent "over 5000 under 2000").constraints none) = true :=
  claim2_conflict_failopen "over 5000 under 2000" 5000 2000
    (by decide) (by decide) (by decide) (by decide) (by decide)

/-! ## Claim C3 -/

/-- C3 counterexample: (a) the empty query has no matched span, so
`semantic_query` is the stripped input `""` — the `"products"` fallback fires
only when at least one span was removed (line 337 returns early); (b) for
`"under 100 under 100"` the single matched span `(0, 9)` covers the first
occurrence of `"under 100"`, and after its removal the semantic query still
contains the text `"under 100"` that the price pattern matched. -/
theorem claim3_counterexample :
    (extractIntent "").semantic_query = "" ∧
    removalSpansL (lowerL ("under 100 under 100").data) = [(0, 9)] ∧
    (("under 100 under 100").data.take 9).drop 0 = "under 100".data ∧
    containsSub "under 100".data
      (extractIntent "under 100 under 100").semantic_query.data = true :=
  ⟨by decide, by decide, by decide, by decide⟩

/-- C3 (amended): `semantic_query` is the original query with the characters
at the matched spans excised, whitespace collapsed and the result trimmed
(text equal to a matched fragment may survive when it occurs elsewhere); it
is never empty when at least one pattern matched (falling back to
`"products"`), and with no matched span it is the trimmed input, which is
empty exactly for whitespace-only queries. -/
theorem claim3_cleaning (q : String) :
    (extractIntent q).semantic_query =
      String.mk (cleanSemanticQuery q.data (removalSpansL (lowerL q.data))) ∧
    (removalSpansL (lowerL q.data) ≠ [] → (extractIntent q).semantic_query ≠ "") ∧
    (removalSpansL (lowerL q.data) = [] →
      (extractIntent q).semantic_query = String.mk (trimL q.data)) := by
  refine ⟨extractIntent_semantic q, ?_, ?_⟩
  · intro h
    rw [extractIntent_semantic q]
    simp only [cleanSemanticQuery, if_neg h]
    unfold cleanFallback
    split
    · decide
    · next hne =>
      intro hcon
      exact hne (by simpa using congrArg String.data hcon)
  · intro h
    rw [extractIntent_semantic q]
    simp only [cleanSemanticQuery, if_pos h]

/-- C3 witness: the amended claim instantiated at `"laptop under 50000"`,
whose price span is removed and whose semantic query is nonempty. -/
theorem claim3_witness :
    removalSpansL (lowerL ("laptop under 50000").data) ≠ [] ∧
    (extractIntent "laptop under 50000").semantic_query ≠ "" :=
  ⟨by decide, (claim3_cleaning "laptop under 50000").2.1 (by decide)⟩

/-! ## Claim C4 -/

/-- C4 counterexample: the Constraints value with `price_min = 7000`,
`price_max = 0`, `conflict = false` — exactly what the extractor produces
for `"over 7000 under 0"` — merged with an absent caller yields
`conflict = true`: merge recomputes the flag with `is not None` tests
(line 277), so the output differs from the input on the `conflict` field
even though every caller field is empty. -/
theorem claim4_counterexample :
    (extractIntent "over 7000 under 0").constraints =
      { price_min := some 7000, price_max := some 0 } ∧
    callerEmptyAll none = true ∧
    (mergeFilters { price_min := some 7000, price_max := some 0 } none).conflict = true ∧
    ({ price_min := some 7000, price_max := some 0 } : Constraints).conflict = false ∧
    (mergeFilters { price_min := some 7000, price_max := some 0 } none).conflict ≠
      ({ price_min := some 7000, price_max := some 0 } : Constraints).conflict :=
  ⟨by decide, by decide, by decide, by decide, by decide⟩

/-- C4 (amended): when every caller field is empty, `merge` returns the input
Constraints unchanged on every constraint field **except `conflict`, which is
recomputed** as "both bounds set (`is not None`) and `price_min > price_max`";
in particular the output equals the input exactly whenever the input's
`conflict` already satisfies that recomputation. -/
theorem claim4_pass_through (c : Constraints) (ui : Option SearchFilters)
    (h : callerEmptyAll ui = true) :
    (mergeFilters c ui).price_min = c.price_min ∧
    (mergeFilters c ui).price_max = c.price_max ∧
    (mergeFilters c ui).min_rating = c.rating_min ∧
    (mergeFilters c ui).category = c.category ∧
    (mergeFilters c ui).brand = c.brand ∧
    (mergeFilters c ui).color = c.color ∧
    (mergeFilters c ui).size = c.size ∧
    (mergeFilters c ui).approximate_price = c.approximate_price ∧
    (mergeFilters c ui).fuzzy_price = c.fuzzy_price ∧
    (mergeFilters c ui).conflict = conflictRecompute c.price_min c.price_max ∧
    (c.conflict = conflictRecompute c.price_min c.price_max →
      (mergeFilters c ui).conflict = c.conflict) := by
  cases ui with
  | none =>
    refine ⟨rfl, rfl, rfl, rfl, rfl, rfl, rfl, rfl, rfl, rfl, ?_⟩
    intro h'
    rw [h']
    rfl
  | some f =>
    have hf := h
    simp only [callerEmptyAll, Bool.and_eq_true] at hf
    obtain ⟨⟨⟨⟨⟨⟨⟨⟨⟨⟨h1, h2⟩, h3⟩, h4⟩, h5⟩, h6⟩, h7⟩, h8⟩, h9⟩, h10⟩, h11⟩ := hf
    have hmin : substMinF c f = c.price_min := by
      simp [substMinF, uiSetMinF, h1]
    have hmax : substMaxF c f = c.price_max := by
      simp [substMaxF, h2, h3]
    have hsetmin : uiSetMinF f = false := by simp [uiSetMinF, h1]
    have hsetmax : uiSetMaxF f = false := by simp [uiSetMaxF, h2, h3]
    refine ⟨?_, ?_, ?_, ?_, ?_, ?_, ?_, rfl, rfl, ?_, ?_⟩ <;>
      simp [mergeFilters, hmin, hmax, hsetmin, hsetmax, h4, h5, h6, h7, h8, conflictRecompute]
    intro h'
    rw [h']

/-- C4 witness: the amended pass-through law instantiated at a Constraints
value with one price bound and a caller filter object with every field at
its empty default. -/
theorem claim4_witness :
    callerEmptyAll (some {}) = true ∧
    ((mergeFilters { price_min := some 10 } (some {})).price_min =
        ({ price_min := some 10 } : Constraints).price_min ∧
     (mergeFilters { price_min := some 10 } (some {})).price_max =
        ({ price_min := some 10 } : Constraints).price_max ∧
     (mergeFilters { price_min := some 10 } (some {})).min_rating =
        ({ price_min := some 10 } : Constraints).rating_min ∧
     (mergeFilters { price_min := some 10 } (some {})).category =
        ({ price_min := some 10 } : Constraints).category ∧
     (mergeFilters { price_min := some 10 } (some {})).brand =
        ({ price_min := some 10 } : Constraints).brand ∧
     (mergeFilters { price_min := some 10 } (some {})).color =
        ({ price_min := some 10 } : Constraints).color ∧
     (mergeFilters { price_min := some 10 } (some {})).size =
        ({ price_min := some 10 } : Constraints).size ∧
     (mergeFilters { price_min := some 10 } (some {})).approximate_price =
        ({ price_min := some 10 } : Constraints).approximate_price ∧
     (mergeFilters { price_min := some 10 } (some {})).fuzzy_price =
        ({ price_min := some 10 } : Constraints).fuzzy_price ∧
     (mergeFilters { price_min := some 10 } (some {})).conflict =
        conflictRecompute ({ price_min := some 10 } : Constraints).price_min
          ({ price_min := some 10 } : Constraints).price_max ∧
     (({ price_min := some 10 } : Constraints).conflict =
        conflictRecompute ({ price_min := some 10 } : Constraints).price_min
          ({ price_min := some 10 } : Constraints).price_max →
      (mergeFilters { price_min := some 10 } (some {})).conflict =
        ({ price_min := some 10 } : Constraints).conflict)) :=
  ⟨by decide, claim4_pass_through { price_min := some 10 } (some {}) (by decide)⟩

/-! ## Claim C5 -/

/-- C5 (confirmed): when the caller supplied at least one non-empty price
bound and the substituted pair conflicts (`price_min > price_max`), merge
keeps exactly the caller-supplied bound(s) and clears exactly the
NLP-originated one(s); the conflict flag of the output is recomputed fresh
from the final pair for every merge call (so it is `true` here exactly when
both conflicting bounds came from the caller), and is never carried over
from the input Constraints. -/
theorem claim5_caller_precedence (nlp : Constraints) (f : SearchFilters) (a b : ℚ)
    (hui : (uiSetMinF f || uiSetMaxF f) = true)
    (hmin : substMinF nlp f = some a)
    (hmax : substMaxF nlp f = some b)
    (hba : b < a) :
    (mergeFilters nlp (some f)).price_min = (if uiSetMinF f then some a else none) ∧
    (mergeFilters nlp (some f)).price_max = (if uiSetMaxF f then some b else none) ∧
    (mergeFilters nlp (some f)).conflict = (uiSetMinF f && uiSetMaxF f) ∧
    ∀ (c : Constraints) (ui : Option SearchFilters),
      (mergeFilters c ui).conflict =
        conflictRecompute (mergeFilters c ui).price_min (mergeFilters c ui).price_max := by
  have hclear : ((uiSetMinF f || uiSetMaxF f) &&
      conflictRecompute (substMinF nlp f) (substMaxF nlp f)) = true := by
    rw [hui, hmin, hmax]
    simp [conflictRecompute, hba]
  refine ⟨?_, ?_, ?_, fun c ui => mergeFilters_conflict_recomputed c ui⟩
  · simp only [mergeFilters]
    rw [hclear]
    by_cases hm : uiSetMinF f <;> simp [hm, hmin]
  · simp only [mergeFilters]
    rw [hclear]
    by_cases hM : uiSetMaxF f <;> simp [hM, hmax]
  · simp only [mergeFilters]
    rw [hclear]
    by_cases hm : uiSetMinF f <;> by_cases hM : uiSetMaxF f <;>
      simp [hm, hM, hmin, hmax, conflictRecompute, hba]

/-- C5 witness: the NLP lower bound 5000 conflicts with the caller upper
bound 2000; the NLP bound is cleared, the caller bound kept, and the
recomputed conflict flag is false. -/
theorem claim5_witness :
    (mergeFilters { price_min := some 5000 } (some { price_max := some 2000 })).price_min =
      (if uiSetMinF { price_max := some 2000 } then some 5000 else none) ∧
    (mergeFilters { price_min := some 5000 } (some { price_max := some 2000 })).price_max =
      (if uiSetMaxF { price_max := some 2000 } then some (2000 : ℚ) else none) ∧
    (mergeFilters { price_min := some 5000 } (some { price_max := some 2000 })).conflict =
      (uiSetMinF { price_max := some 2000 } && uiSetMaxF { price_max := some 2000 }) ∧
    ∀ (c : Constraints) (ui : Option SearchFilters),
      (mergeFilters c ui).conflict =
        conflictRecompute (mergeFilters c ui).price_min (mergeFilters c ui).price_max :=
  claim5_caller_precedence { price_min := some 5000 } { price_max := some 2000 } 5000 2000
    (by decide) (by decide) (by decide) (by decide)

/-! ## Claim C6 -/

/-- C6 (confirmed): the `category_is_semantic_hint` flag (`_nlp_category`) of
a merge result is true exactly when the final category equals the
NLP-extracted category and the caller supplied no non-empty category; the
filter predicate ignores the product's category entirely when the flag is
true, and when the flag is false (and no conflict fail-open applies) a set,
non-empty category filter value rejects any product whose lower-cased
category does not contain the lower-cased filter value as a substring. -/
theorem claim6_semantic_hint (nlp : Constraints) (ui : Option SearchFilters)
    (pr : Product) (f : MergedFilters) (c : String) (cat : String) :
    ((mergeFilters nlp ui).nlpCategory = true ↔
      ((mergeFilters nlp ui).category = nlp.category ∧ callerCatEmpty ui = true)) ∧
    (f.nlpCategory = true →
      passesFilters pr f = passesFilters { pr with category := c } f) ∧
    (f.nlpCategory = false → f.conflict = false → f.category = some cat → cat ≠ "" →
      containsSub (lowerL cat.data) (lowerL pr.category.data) = false →
      passesFilters pr f = false) := by
  refine ⟨?_, ?_, ?_⟩
  · simp [mergeFilters, Bool.and_eq_true, decide_eq_true_iff]
  · intro hflag
    simp [passesFilters, hflag]
  · intro hflag hconf hcat hne hcs
    simp [passesFilters, hconf, hflag, hcat, truthyS, hne, hcs]

/-- C6 witness: with the semantic-hint flag set, products with different
categories are treated alike by the predicate. -/
theorem claim6_witness :
    passesFilters { category := "Shoes" }
      { price_min := none, price_max := none, max_price := none, min_rating := none,
        category := some "shoes", brand := none, color := none, size := none,
        approximate_price := false, fuzzy_price := false, conflict := false,
        nlpCategory := true } =
    passesFilters { ({ category := "Shoes" } : Product) with category := "Electronics" }
      { price_min := none, price_max := none, max_price := none, min_rating := none,
        category := some "shoes", brand := none, color := none, size := none,
        approximate_price := false, fuzzy_price := false, conflict := false,
        nlpCategory := true } :=
  (claim6_semantic_hint {} none { category := "Shoes" }
    { price_min := none, price_max := none, max_price := none, min_rating := none,
      category := some "shoes", brand := none, color := none, size := none,
      approximate_price := false, fuzzy_price := false, conflict := false,
      nlpCategory := true } "Electronics" "x").2.1 (by decide)

/-! ## Claim C7 -/

/-- C7 counterexample: a result whose similarity score `10⁻⁵` is not a
multiple of `10⁻⁴`, with zero clicks, is re-ranked to score `0`: the
rounding of line 67 lowers the score, refuting `new_score ≥ old_score` and
`clicks = 0 → new_score = old_score` over arbitrary result lists. -/
theorem claim7_counterexample :
    applyRanking (fun _ => none)
      [{ id := "p", title := "t", price := none, rating := none,
         similarity_score := mkRat 1 100000 }] =
      [{ id := "p", title := "t", price := none, rating := none,
         similarity_score := 0 }] ∧
    (0 : ℚ) < mkRat 1 100000 :=
  ⟨by decide, by decide⟩

/-- C7 (amended): with `alpha_click = 0.05` and `max_boost = 0.5`, for every
click mapping (missing entries defaulting to 0) and every result list
**whose scores are integer multiples of `10⁻⁴`** (as the retrieval step
produces), rerank computes each adjusted score as exactly
`old + min(max_boost, clicks · alpha_click)` (the `round(·, 4)` is exact
there), hence `new ≥ old`, `new − old ≤ max_boost`, and zero clicks leave
the score unchanged. -/
theorem claim7_ranking_formula (metrics : String → Option Nat) (l : List SearchResult)
    (h4 : ∀ r ∈ l, ∃ m : ℤ, r.similarity_score = (m : ℚ) / 10 ^ 4) :
    alphaClick = 5 / 100 ∧ maxBoost = 1 / 2 ∧
    (applyRanking metrics l).Perm (l.map (adjustScore metrics)) ∧
    ∀ r ∈ l,
      (adjustScore metrics r).similarity_score =
        r.similarity_score + min maxBoost ((clicksOf metrics r.id : ℚ) * alphaClick) ∧
      r.similarity_score ≤ (adjustScore metrics r).similarity_score ∧
      (adjustScore metrics r).similarity_score - r.similarity_score ≤ maxBoost ∧
      (clicksOf metrics r.id = 0 →
        (adjustScore metrics r).similarity_score = r.similarity_score) := by
  refine ⟨alphaClick_eq, maxBoost_eq, applyRanking_perm metrics l, ?_⟩
  intro r hr
  obtain ⟨m, hm⟩ := h4 r hr
  have he := adjustScore_eq metrics r m hm
  have hb0 : (0 : ℚ) ≤ min maxBoost ((clicksOf metrics r.id : ℚ) * alphaClick) :=
    le_min (by rw [maxBoost_eq]; norm_num) (by rw [alphaClick_eq]; positivity)
  have hble := min_le_left maxBoost ((clicksOf metrics r.id : ℚ) * alphaClick)
  refine ⟨he, by rw [he]; linarith, by rw [he]; linarith, ?_⟩
  intro hc
  rw [he, hc]
  have h0 : ((0 : ℕ) : ℚ) * alphaClick = 0 := by norm_num
  rw [h0, min_eq_right (by rw [maxBoost_eq]; norm_num), add_zero]

/-- C7 witness: the amended claim instantiated at a one-element list with
score `0.5` and three recorded clicks (boost `0.15`). -/
theorem claim7_witness :
    (adjustScore (fun _ => some 3)
        { id := "p", title := "t", price := none, rating := none,
          similarity_score := mkRat 1 2 }).similarity_score =
      ({ id := "p", title := "t", price := none, rating := none,
         similarity_score := mkRat 1 2 } : SearchResult).similarity_score +
        min maxBoost
          ((clicksOf (fun _ => some 3)
              ({ id := "p", title := "t", price := none, rating := none,
                 similarity_score := mkRat 1 2 } : SearchResult).id : ℚ) * alphaClick) ∧
    ({ id := "p", title := "t", price := none, rating := none,
       similarity_score := mkRat 1 2 } : SearchResult).similarity_score ≤
      (adjustScore (fun _ => some 3)
        { id := "p", title := "t", price := none, rating := none,
          similarity_score := mkRat 1 2 }).similarity_score ∧
    (adjustScore (fun _ => some 3)
        { id := "p", title := "t", price := none, rating := none,
          similarity_score := mkRat 1 2 }).similarity_score -
      ({ id := "p", title := "t", price := none, rating := none,
         similarity_score := mkRat 1 2 } : SearchResult).similarity_score ≤ maxBoost ∧
    (clicksOf (fun _ => some 3)
        ({ id := "p", title := "t", price := none, rating := none,
           similarity_score := mkRat 1 2 } : SearchResult).id = 0 →
      (adjustScore (fun _ => some 3)
          { id := "p", title := "t", price := none, rating := none,
            similarity_score := mkRat 1 2 }).similarity_score =
        ({ id := "p", title := "t", price := none, rating := none,
           similarity_score := mkRat 1 2 } : SearchResult).similarity_score) :=
  (claim7_ranking_formula (fun _ => some 3)
    [{ id := "p", title := "t", price := none, rating := none,
       similarity_score := mkRat 1 2 }]
    (by
      intro r hr
      rw [List.mem_singleton] at hr
      subst hr
      refine ⟨5000, ?_⟩
      rw [Rat.mkRat_eq_divInt, Rat.divInt_eq_div]
      norm_num)).2.2.2
    { id := "p", title := "t", price := none, rating := none,
      similarity_score := mkRat 1 2 } (List.mem_singleton.mpr rfl)

/-! ## Claim C8 -/

/-- C8 (confirmed): rerank orders the results by adjusted score descending,
and results with equal adjusted scores keep the relative order they had in
the (score-adjusted) input list: filtering the output by any fixed score
yields exactly the input's subsequence with that score. -/
theorem claim8_sorted_stable (metrics : String → Option Nat) (l : List SearchResult) :
    (applyRanking metrics l).Pairwise
      (fun x y => y.similarity_score ≤ x.similarity_score) ∧
    ∀ s : ℚ,
      (applyRanking metrics l).filter (fun r => r.similarity_score == s) =
        (l.map (adjustScore metrics)).filter (fun r => r.similarity_score == s) := by
  constructor
  · exact applyRanking_sorted metrics l
  · intro s
    unfold applyRanking
    split
    · next h => subst h; simp
    · apply stableSort_filter
      intro x y hx hy
      have hxs : x.similarity_score = s := by simpa using hx
      have hys : y.similarity_score = s := by simpa using hy
      simp only [scoreDescLE, decide_eq_true_eq, hxs, hys]
      exact le_refl s

/-! ## Claim C9 -/

/-- C9 (confirmed): for every query, caller filters and positive limit (and
any behaviour of the external collaborators), `search` returns a list of at
most `limit` results ordered by score descending, and an empty candidate
list from the Vector Index yields the empty list rather than an error. -/
theorem claim9_search_contract
    (gen : String → String → Option String → Option String → ℚ → String)
    (getProduct : String → Option Product) (metrics : String → Option Nat)
    (productIds : List String) (distances : List ℚ)
    (query : String) (filters : Option SearchFilters) (limit : Nat)
    (_hlim : 0 < limit) :
    (searchImpl gen getProduct metrics productIds distances query filters limit).length ≤
      limit ∧
    (searchImpl gen getProduct metrics productIds distances query filters limit).Pairwise
      (fun x y => y.similarity_score ≤ x.similarity_score) ∧
    (productIds = [] →
      searchImpl gen getProduct metrics productIds distances query filters limit = []) := by
  refine ⟨?_, ?_, ?_⟩
  · simp only [searchImpl]
    by_cases h : productIds = []
    · rw [if_pos h]
      exact Nat.zero_le _
    · rw [if_neg h]
      by_cases hr : collectResults getProduct
          (mergeFilters (extractIntent query).constraints filters) limit
          (productIds.zip distances) [] = []
      · rw [if_pos hr, hr]
        exact Nat.zero_le _
      · rw [if_neg hr, length_enrichResults, length_applyRanking]
        exact collectResults_length_le _ _ _ _ [] (Nat.zero_le _)
  · simp only [searchImpl]
    by_cases h : productIds = []
    · rw [if_pos h]
      exact List.Pairwise.nil
    · rw [if_neg h]
      by_cases hr : collectResults getProduct
          (mergeFilters (extractIntent query).constraints filters) limit
          (productIds.zip distances) [] = []
      · rw [if_pos hr, hr]
        exact List.Pairwise.nil
      · rw [if_neg hr]
        exact enrichResults_sorted _ _ _ (applyRanking_sorted _ _)
  · intro h
    simp [searchImpl, h]

/-- C9 witness: a concrete search call with limit 1 against a product store
that knows no products. -/
theorem claim9_witness :
    0 < 1 ∧
    ((searchImpl (fun _ _ _ _ _ => "") (fun _ => none) (fun _ => none)
        ["p1"] [0] "shoes" none 1).length ≤ 1 ∧
     (searchImpl (fun _ _ _ _ _ => "") (fun _ => none) (fun _ => none)
        ["p1"] [0] "shoes" none 1).Pairwise
        (fun x y => y.similarity_score ≤ x.similarity_score) ∧
     ((["p1"] : List String) = [] →
      searchImpl (fun _ _ _ _ _ => "") (fun _ => none) (fun _ => none)
        ["p1"] [0] "shoes" none 1 = [])) :=
  ⟨by decide,
   claim9_search_contract (fun _ _ _ _ _ => "") (fun _ => none) (fun _ => none)
     ["p1"] [0] "shoes" none 1 (by decide)⟩

/-! ## Claim C10 -/

/-- C10 (confirmed): rerank returns a permutation of the (score-adjusted)
input — same length, exactly the input results — and the adjustment changes
no field other than `similarity_score`. -/
theorem claim10_rerank_frame (metrics : String → Option Nat) (l : List SearchResult) :
    (applyRanking metrics l).Perm (l.map (adjustScore metrics)) ∧
    (applyRanking metrics l).length = l.length ∧
    ∀ r : SearchResult,
      (adjustScore metrics r).id = r.id ∧
      (adjustScore metrics r).title = r.title ∧
      (adjustScore metrics r).price = r.price ∧
      (adjustScore metrics r).rating = r.rating ∧
      (adjustScore metrics r).description = r.description ∧
      (adjustScore metrics r).category = r.category ∧
      (adjustScore metrics r).explanation = r.explanation :=
  ⟨applyRanking_perm metrics l, length_applyRanking metrics l,
   fun _ => ⟨rfl, rfl, rfl, rfl, rfl, rfl, rfl⟩⟩

end ContextualSearch
